import Mathlib

/-!
Verification of the `bouncer` button-press recognizer (`bouncer.go`).

The embedding models the pure decision logic of the package:

* `time.Duration` and monotonic instants are Go `int64` nanosecond counts;
  they are modelled as `Int` (the claims stay far from the `int64` range).
* `time.Time{}` (the zero value used to clear `btnDown`) is the zero instant.
* A Go channel of `PressLength` is modelled, for the fan-out claims, by the
  list of values received on it so far; for construction claims a channel
  handle is an opaque identifier (`Nat`).
* The endless `select` loop of `RecognizeAndPublish` is modelled by a step
  function on the loop state `(ticks, btnDown)` applied to one incoming
  event (a systick, or a `Bounce` from the ISR channel), folded over a
  finite list of events.  The `default:` branch of the `select` does
  nothing and needs no counterpart.
* The hardware fields (`pin`, `isrChan`) and the print statements are not
  modelled; they do not affect any decision.
-/

namespace Bouncer

/-- Shorthand for `n * time.Millisecond`. -/
def msec (n : Int) : Int := n * 1000000

/-- Error string constant from bouncer.go. -/
def ERROR_DEBOUNCE_TOO_SHORT : String := "Debounces should probably be greater than 10ms"

/-- Error string constant from bouncer.go. -/
def ERROR_DEBOUNCE_TOO_LONG : String := "Debounces should probably be shorter than 30ms"

/-- Error string constant from bouncer.go. -/
def ERROR_TIMES_MUST_ASCEND : String := "Button press intervals must ascend in duration (sp, lp, elp)"

/-- Error string constant from bouncer.go. -/
def ERROR_NO_OUTPUT_CHANNELS : String := "New bouncer wasn\x27t given any output channels"

/-- The `PressLength` enumeration of bouncer.go (`uint8`, `iota` order). -/
inductive PressLength : Type where
  | Debounce : PressLength
  | ShortPress : PressLength
  | LongPress : PressLength
  | ExtraLongPress : PressLength
deriving DecidableEq

/-- A `Bounce`: pin state and sample time pushed by the interrupt handler. -/
structure Bounce : Type where
  t : Int
  s : Bool
deriving DecidableEq

/-- The `button` struct of bouncer.go, restricted to the fields the decision
logic reads.  `outChans` keeps the registered output-channel handles in
registration order; handles are opaque identifiers. -/
structure Button : Type where
  name : String
  quiet : Bool
  debounceInterval : Int
  shortPress : Int
  longPress : Int
  extraLongPress : Int
  outChans : List Nat
deriving DecidableEq

/-- `New` (bouncer.go lines 89-108): fails when no output channels are given,
otherwise builds a button with the default intervals and exactly the supplied
output channels (the Go loop copies `outs` into `outChans` in order). -/
def New (q : Bool) (name : String) (outs : List Nat) : Except String Button :=
  if outs.length < 1 then
    Except.error ERROR_NO_OUTPUT_CHANNELS
  else
    Except.ok { name := name, quiet := q,
                debounceInterval := msec 21, shortPress := msec 22,
                longPress := msec 500, extraLongPress := msec 1971,
                outChans := outs }

/-- `SetDebounceDuration` (bouncer.go lines 212-221).  The Go method mutates
the receiver and returns an `error`; here it returns the updated receiver
paired with the error (`none` for Go `nil`), so an error leaves the receiver
unchanged. -/
def SetDebounceDuration (b : Button) (t : Int) : Button × Option String :=
  if t < msec 10 then (b, some ERROR_DEBOUNCE_TOO_SHORT)
  else if t > msec 30 then (b, some ERROR_DEBOUNCE_TOO_LONG)
  else ({ b with debounceInterval := t }, none)

/-- `SetPressDurations` (bouncer.go lines 225-233), same convention as
`SetDebounceDuration`. -/
def SetPressDurations (b : Button) (sp lp elp : Int) : Button × Option String :=
  if sp > lp ∨ sp > elp ∨ lp > elp then (b, some ERROR_TIMES_MUST_ASCEND)
  else ({ b with shortPress := sp, longPress := lp, extraLongPress := elp }, none)

/-- The debounce gate of `RecognizeAndPublish` is the literal comparison
`ticks >= 2` (bouncer.go line 168). -/
def debounceThreshold : Nat := 2

/-- Loop state of `RecognizeAndPublish`: the tick counter `ticks` and the
press-start time `btnDown` (`time.Time{}`, i.e. instant `0`, when cleared). -/
structure RecState : Type where
  ticks : Nat
  btnDown : Int
deriving DecidableEq

/-- Initial loop state of `RecognizeAndPublish`: `ticks := 0`,
`btnDown := time.Time{}`. -/
def initState : RecState := { ticks := 0, btnDown := 0 }

/-- One event consumed by the `select` of `RecognizeAndPublish`: a systick
from `tickerCh`, or a `Bounce` from `isrChan`. -/
inductive Event : Type where
  | tick : Event
  | isr : Bounce → Event
deriving DecidableEq

/-- The classification chain of `RecognizeAndPublish` (bouncer.go lines
179-205): a duration below `debounceInterval` is reported as a bounce and
dropped; otherwise the duration is matched against `extraLongPress`,
`longPress`, `shortPress` in that order, and a duration below `shortPress`
falls through with no publication.  The result is the value passed to
`publish`, or `none` when nothing is published. -/
def classify (b : Button) (dur : Int) : Option PressLength :=
  if dur < b.debounceInterval then
    none
  else if dur ≥ b.extraLongPress then
    some PressLength.ExtraLongPress
  else if dur < b.extraLongPress ∧ dur ≥ b.longPress then
    some PressLength.LongPress
  else if dur < b.longPress ∧ dur ≥ b.shortPress then
    some PressLength.ShortPress
  else
    none

/-- One iteration of the `RecognizeAndPublish` loop body (bouncer.go lines
146-207) on one event, returning the next loop state and the published
value, if any.  Every branch of the Go `switch` other than the accepting
release `continue`s before the classification block, so `classify` runs
exactly on the freshly computed duration of an accepted release. -/
def recognizeStep (b : Button) (st : RecState) (e : Event) : RecState × Option PressLength :=
  match e with
  | Event.tick =>
      if st.ticks > 0 then ({ st with ticks := st.ticks + 1 }, none)
      else (st, none)
  | Event.isr tr =>
      match tr.s with
      | false =>
          if st.ticks = 0 then ({ ticks := 1, btnDown := tr.t }, none)
          else (st, none)
      | true =>
          if st.ticks = 0 then (st, none)
          else if st.ticks ≥ debounceThreshold then
            ({ ticks := 0, btnDown := 0 }, classify b (tr.t - st.btnDown))
          else (st, none)

/-- `RecognizeAndPublish` folded over a finite prefix of the incoming event
stream: final loop state and the sequence of published values in order. -/
def recognizeRun (b : Button) : RecState → List Event → RecState × List PressLength
  | st, [] => (st, [])
  | st, e :: rest =>
      let p := recognizeStep b st e
      let q := recognizeRun b p.1 rest
      (q.1, p.2.toList ++ q.2)

/-- `publish` (bouncer.go lines 302-306): sends `p` on every output channel
in order; a channel is modelled by the list of values received on it. -/
def publish (chans : List (List PressLength)) (p : PressLength) : List (List PressLength) :=
  chans.map (fun c => c ++ [p])

/-- Repeated `publish` of a sequence of classified values. -/
def publishAll (chans : List (List PressLength)) (ps : List PressLength) : List (List PressLength) :=
  List.foldl publish chans ps

/-- The event stream of one press/release cycle: a press edge at `d`,
`m` systicks, then a release edge at `u`. -/
def pressTrace (d : Int) (m : Nat) (u : Int) : List Event :=
  Event.isr { t := d, s := false } :: (List.replicate m Event.tick ++ [Event.isr { t := u, s := true }])

/-- Event stream of a list of press/release cycles interleaved with a tick
schedule: cycle `i` has edges `(edges[i].1, edges[i].2)` and `ms[i]` ticks
in between. -/
def traceZip (edges : List (Int × Int)) (ms : List Nat) : List Event :=
  (edges.zip ms).flatMap (fun p => pressTrace p.1.1 p.2 p.1.2)

/-! Helper lemmas about runs of the recognizer. -/

/-- A run over `m` systicks while armed only advances the tick counter. -/
lemma recognizeRun_ticks (b : Button) :
    ∀ (m k : Nat) (t : Int) (rest : List Event),
      recognizeRun b { ticks := k + 1, btnDown := t } (List.replicate m Event.tick ++ rest) =
        recognizeRun b { ticks := k + 1 + m, btnDown := t } rest := by
  intro m
  induction m with
  | zero => intro k t rest; rfl
  | succ m ih =>
      intro k t rest
      have h1 : List.replicate (m + 1) Event.tick ++ rest =
          Event.tick :: (List.replicate m Event.tick ++ rest) := by
        simp [List.replicate_succ]
      have h2 : recognizeStep b { ticks := k + 1, btnDown := t } Event.tick =
          ({ ticks := k + 2, btnDown := t }, none) := by
        simp [recognizeStep]
      have h3 : k + 2 = (k + 1) + 1 := by omega
      have h4 : k + 1 + 1 + m = k + 1 + (m + 1) := by omega
      rw [h1]
      simp only [recognizeRun, h2, h3, ih (k + 1) t rest, h4,
        Option.toList_none, List.nil_append]

/-- A full press/release cycle with `1 ≤ m` intervening ticks: the press arms
the recognizer, the ticks advance the counter past the debounce gate, and the
release is accepted, resets the state and publishes `classify` of the
edge-to-edge duration. -/
lemma recognizeRun_cycle (b : Button) (d u : Int) (m : Nat) (hm : 1 ≤ m)
    (z : Int) (rest : List Event) :
    recognizeRun b { ticks := 0, btnDown := z }
        (Event.isr { t := d, s := false } ::
          (List.replicate m Event.tick ++ (Event.isr { t := u, s := true } :: rest))) =
      ((recognizeRun b { ticks := 0, btnDown := 0 } rest).1,
        (classify b (u - d)).toList ++ (recognizeRun b { ticks := 0, btnDown := 0 } rest).2) := by
  have h1 : recognizeStep b { ticks := 0, btnDown := z } (Event.isr { t := d, s := false }) =
      ({ ticks := 1, btnDown := d }, none) := by
    simp [recognizeStep]
  have h3 : recognizeRun b { ticks := 1, btnDown := d }
      (List.replicate m Event.tick ++ (Event.isr { t := u, s := true } :: rest)) =
        recognizeRun b { ticks := 1 + m, btnDown := d }
          (Event.isr { t := u, s := true } :: rest) := by
    simpa using recognizeRun_ticks b m 0 d (Event.isr { t := u, s := true } :: rest)
  have h2 : recognizeStep b { ticks := 1 + m, btnDown := d } (Event.isr { t := u, s := true }) =
      ({ ticks := 0, btnDown := 0 }, classify b (u - d)) := by
    have hne : ¬ (1 + m = 0) := by omega
    have hge : 1 + m ≥ debounceThreshold := by simp [debounceThreshold]; omega
    simp [recognizeStep, hne, hge]
  simp only [recognizeRun, h1, h3, h2, Option.toList_none, List.nil_append]

/-- Publishing once appends the same value to every channel. -/
lemma publish_replicate (n : Nat) (c : List PressLength) (p : PressLength) :
    publish (List.replicate n c) p = List.replicate n (c ++ [p]) := by
  simp [publish]

/-- Publishing a sequence of values appends that same sequence to every
channel. -/
lemma publishAll_replicate (ps : List PressLength) :
    ∀ (n : Nat) (c : List PressLength),
      publishAll (List.replicate n c) ps = List.replicate n (c ++ ps) := by
  induction ps with
  | nil => intro n c; simp [publishAll]
  | cons p ps ih =>
      intro n c
      show publishAll (publish (List.replicate n c) p) ps = _
      rw [publish_replicate, ih]
      simp

/-- The published output of a multi-cycle trace, every cycle having at least
one intervening tick, is `classify` of each cycle's edge-to-edge duration. -/
lemma recognizeRun_traceZip (b : Button) :
    ∀ (edges : List (Int × Int)) (ms : List Nat) (z : Int),
      ms.length = edges.length → (∀ k ∈ ms, 1 ≤ k) →
      (recognizeRun b { ticks := 0, btnDown := z } (traceZip edges ms)).2 =
        edges.filterMap (fun e => classify b (e.2 - e.1)) := by
  intro edges
  induction edges with
  | nil => intro ms z _ _; simp [traceZip, recognizeRun]
  | cons e es ih =>
      intro ms z hlen hms
      match ms with
      | [] => simp at hlen
      | k :: ks =>
          have hk : 1 ≤ k := hms k (by simp)
          have hks : ∀ j ∈ ks, 1 ≤ j := fun j hj => hms j (by simp [hj])
          have hlen2 : ks.length = es.length := by simpa using hlen
          have htr : traceZip (e :: es) (k :: ks) =
              Event.isr { t := e.1, s := false } ::
                (List.replicate k Event.tick ++
                  (Event.isr { t := e.2, s := true } :: traceZip es ks)) := by
            simp [traceZip, pressTrace, List.flatMap_cons]
          rw [htr, recognizeRun_cycle b e.1 e.2 k hk z (traceZip es ks)]
          simp only [ih ks 0 hlen2 hks]
          cases hcl : classify b (e.2 - e.1) <;>
            simp [List.filterMap_cons, hcl]

/-- The button produced by `New` with one output channel and the default
intervals, used as a concrete test fixture. -/
def b0 : Button :=
  { name := "b", quiet := false,
    debounceInterval := msec 21, shortPress := msec 22,
    longPress := msec 500, extraLongPress := msec 1971,
    outChans := [0] }

/-! Claim theorems. -/

/-- C2: in an ARMED state (tick counter positive), a release edge arriving
while the tick counter is below the debounce threshold publishes nothing and
leaves the state — tick counter and `btnDown` — unchanged, so the recognizer
stays ARMED awaiting a later qualifying release. -/
theorem c2_bounce_release_ignored (b : Button) (st : RecState) (t : Int)
    (h1 : 0 < st.ticks) (h2 : st.ticks < debounceThreshold) :
    recognizeStep b st (Event.isr { t := t, s := true }) = (st, none) := by
  simp only [recognizeStep]
  split_ifs with ha hb
  · omega
  · exact absurd hb (by omega)
  · rfl

/-- Witness for C2 at a concrete ARMED state below the threshold. -/
theorem c2_bounce_release_ignored_witness :
    recognizeStep b0 { ticks := 1, btnDown := 7 } (Event.isr { t := 99, s := true }) =
      ({ ticks := 1, btnDown := 7 }, none) :=
  c2_bounce_release_ignored b0 { ticks := 1, btnDown := 7 } 99 (by decide) (by decide)

/-- C3: in an ARMED state, a second press edge publishes nothing and leaves
the state — `btnDown` and the tick counter — unchanged, so the duration of
the eventual completed press is measured from the first press edge. -/
theorem c3_second_press_ignored (b : Button) (st : RecState) (t : Int)
    (h : 0 < st.ticks) :
    recognizeStep b st (Event.isr { t := t, s := false }) = (st, none) := by
  simp only [recognizeStep]
  split_ifs with ha
  · omega
  · rfl

/-- Witness for C3 at a concrete ARMED state. -/
theorem c3_second_press_ignored_witness :
    recognizeStep b0 { ticks := 3, btnDown := 7 } (Event.isr { t := 99, s := false }) =
      ({ ticks := 3, btnDown := 7 }, none) :=
  c3_second_press_ignored b0 { ticks := 3, btnDown := 7 } 99 (by decide)

/-- C7: when the tick counter has reached the debounce threshold, a release
edge at time `t` is accepted: the published value (possibly none) is
`classify` of the duration `t - btnDown`, and the state returns to IDLE —
tick counter `0`, `btnDown` cleared to the zero instant — whatever the
classification outcome. -/
theorem c7_accepted_release (b : Button) (st : RecState) (t : Int)
    (h : debounceThreshold ≤ st.ticks) :
    recognizeStep b st (Event.isr { t := t, s := true }) =
      ({ ticks := 0, btnDown := 0 }, classify b (t - st.btnDown)) := by
  have ha : ¬ st.ticks = 0 := by
    simp only [debounceThreshold] at h
    omega
  simp only [recognizeStep, if_neg ha, if_pos h]

/-- Witness for C7 at a concrete accepted release. -/
theorem c7_accepted_release_witness :
    recognizeStep b0 { ticks := 2, btnDown := 5 } (Event.isr { t := msec 60, s := true }) =
      ({ ticks := 0, btnDown := 0 }, classify b0 (msec 60 - 5)) :=
  c7_accepted_release b0 { ticks := 2, btnDown := 5 } (msec 60) (by decide)

/-- C4: `SetPressDurations` fails with `ERROR_TIMES_MUST_ASCEND` and leaves
the receiver unchanged exactly on non-ascending triples, and stores exactly
the supplied triple on ascending ones (equalities allowed). -/
theorem c4_setPressDurations_spec (b : Button) (sp lp elp : Int) :
    (sp > lp ∨ sp > elp ∨ lp > elp →
      SetPressDurations b sp lp elp = (b, some ERROR_TIMES_MUST_ASCEND)) ∧
    (sp ≤ lp ∧ lp ≤ elp →
      SetPressDurations b sp lp elp =
        ({ b with shortPress := sp, longPress := lp, extraLongPress := elp }, none)) := by
  constructor
  · intro h
    simp only [SetPressDurations, if_pos h]
  · intro h
    have hne : ¬ (sp > lp ∨ sp > elp ∨ lp > elp) := by omega
    simp only [SetPressDurations, if_neg hne]

/-- Witness for C4: a rejected non-ascending triple and an accepted
ascending one. -/
theorem c4_setPressDurations_spec_witness :
    SetPressDurations b0 (msec 3) (msec 2) (msec 5) = (b0, some ERROR_TIMES_MUST_ASCEND) ∧
    SetPressDurations b0 (msec 1) (msec 2) (msec 3) =
      ({ b0 with shortPress := msec 1, longPress := msec 2, extraLongPress := msec 3 }, none) :=
  ⟨(c4_setPressDurations_spec b0 (msec 3) (msec 2) (msec 5)).1 (by decide),
   (c4_setPressDurations_spec b0 (msec 1) (msec 2) (msec 3)).2 (by decide)⟩

/-- C10: `SetDebounceDuration` fails with `ERROR_DEBOUNCE_TOO_SHORT` below
10ms and `ERROR_DEBOUNCE_TOO_LONG` above 30ms, leaving the receiver
unchanged, and stores exactly `t` for `t` within `[10ms, 30ms]`. -/
theorem c10_setDebounceDuration_spec (b : Button) (t : Int) :
    (t < msec 10 → SetDebounceDuration b t = (b, some ERROR_DEBOUNCE_TOO_SHORT)) ∧
    (t > msec 30 → SetDebounceDuration b t = (b, some ERROR_DEBOUNCE_TOO_LONG)) ∧
    (msec 10 ≤ t ∧ t ≤ msec 30 →
      SetDebounceDuration b t = ({ b with debounceInterval := t }, none)) := by
  refine ⟨?_, ?_, ?_⟩
  · intro h
    simp only [SetDebounceDuration, if_pos h]
  · intro h
    have h1 : ¬ t < msec 10 := by simp only [msec] at h ⊢; omega
    simp only [SetDebounceDuration, if_neg h1, if_pos h]
  · intro h
    have h1 : ¬ t < msec 10 := by simp only [msec] at h ⊢; omega
    have h2 : ¬ t > msec 30 := by simp only [msec] at h ⊢; omega
    simp only [SetDebounceDuration, if_neg h1, if_neg h2]

/-- Witness for C10: one rejected-short, one rejected-long and one accepted
debounce duration. -/
theorem c10_setDebounceDuration_spec_witness :
    SetDebounceDuration b0 (msec 5) = (b0, some ERROR_DEBOUNCE_TOO_SHORT) ∧
    SetDebounceDuration b0 (msec 31) = (b0, some ERROR_DEBOUNCE_TOO_LONG) ∧
    SetDebounceDuration b0 (msec 25) = ({ b0 with debounceInterval := msec 25 }, none) :=
  ⟨(c10_setDebounceDuration_spec b0 (msec 5)).1 (by decide),
   (c10_setDebounceDuration_spec b0 (msec 31)).2.1 (by decide),
   (c10_setDebounceDuration_spec b0 (msec 25)).2.2 (by decide)⟩

/-- C5: `New` fails with `ERROR_NO_OUTPUT_CHANNELS` when no output channels
are supplied, and otherwise succeeds with a button holding exactly the
supplied output channels in the supplied order (and the default intervals). -/
theorem c5_New_spec (q : Bool) (nm : String) (outs : List Nat) :
    (outs = [] → New q nm outs = Except.error ERROR_NO_OUTPUT_CHANNELS) ∧
    (outs ≠ [] → New q nm outs =
      Except.ok { name := nm, quiet := q,
                  debounceInterval := msec 21, shortPress := msec 22,
                  longPress := msec 500, extraLongPress := msec 1971,
                  outChans := outs }) := by
  constructor
  · intro h
    subst h
    rfl
  · intro h
    have h1 : ¬ outs.length < 1 := by
      cases outs with
      | nil => exact absurd rfl h
      | cons a l => simp
    simp only [New, if_neg h1]

/-- Witness for C5: rejected empty channel list, accepted singleton list. -/
theorem c5_New_spec_witness :
    New false ("b") [] = Except.error ERROR_NO_OUTPUT_CHANNELS ∧
    New false ("b") [0] = Except.ok b0 :=
  ⟨(c5_New_spec false ("b") []).1 rfl,
   (c5_New_spec false ("b") [0]).2 (by decide)⟩

/-- The button `b0` after `SetPressDurations 1ms 500ms 1500ms`: a valid
ascending configuration whose short-press threshold lies below the default
debounce interval of 21ms. -/
def bCE : Button :=
  { b0 with shortPress := msec 1, longPress := msec 500, extraLongPress := msec 1500 }

/-- C1, counterexample to the claim as stated: the ascending configuration
`(1ms, 500ms, 1500ms)` is accepted, a press of duration `D = 5ms` satisfies
`short ≤ D < long`, its release arrives after 2 intervening ticks and is
accepted (the final state is reset to IDLE), yet nothing is published —
the claimed `ShortPress` publication does not happen, because the code
first drops any duration below `debounceInterval` (21ms here) as a bounce. -/
theorem c1_counterexample :
    New false ("b") [0] = Except.ok b0 ∧
    SetPressDurations b0 (msec 1) (msec 500) (msec 1500) = (bCE, none) ∧
    bCE.shortPress ≤ msec 5 - 0 ∧ msec 5 - 0 < bCE.longPress ∧
    recognizeRun bCE initState (pressTrace 0 2 (msec 5)) =
      ({ ticks := 0, btnDown := 0 }, []) :=
  ⟨rfl, by decide, by decide, by decide, by decide⟩

/-- C1, amended: for an ascending configuration and a press/release cycle
whose release arrives after at least `debounceThreshold` intervening ticks,
the cycle publishes `ExtraLongPress` iff `debounceInterval ≤ D` and
`extraLong ≤ D`; `LongPress` iff `debounceInterval ≤ D` and
`long ≤ D < extraLong`; `ShortPress` iff `debounceInterval ≤ D` and
`short ≤ D < long`; and nothing iff `D < debounceInterval` or `D < short`,
where `D` is the release timestamp minus the press timestamp. -/
theorem c1_classification_amended (b : Button)
    (hsl : b.shortPress ≤ b.longPress) (hle : b.longPress ≤ b.extraLongPress)
    (t0 t1 : Int) (m : Nat) (hm : debounceThreshold ≤ m)
    (outs : List PressLength)
    (houts : outs = (recognizeRun b initState (pressTrace t0 m t1)).2)
    (D : Int) (hD : D = t1 - t0) :
    (outs = [PressLength.ExtraLongPress] ↔
      b.debounceInterval ≤ D ∧ b.extraLongPress ≤ D) ∧
    (outs = [PressLength.LongPress] ↔
      b.debounceInterval ≤ D ∧ b.longPress ≤ D ∧ D < b.extraLongPress) ∧
    (outs = [PressLength.ShortPress] ↔
      b.debounceInterval ≤ D ∧ b.shortPress ≤ D ∧ D < b.longPress) ∧
    (outs = [] ↔ D < b.debounceInterval ∨ D < b.shortPress) := by
  subst hD
  subst houts
  have hm1 : 1 ≤ m := by
    simp only [debounceThreshold] at hm
    omega
  have hrun : recognizeRun b initState (pressTrace t0 m t1) =
      ({ ticks := 0, btnDown := 0 }, (classify b (t1 - t0)).toList) := by
    have hcyc := recognizeRun_cycle b t0 t1 m hm1 0 []
    simpa [pressTrace, initState, recognizeRun] using hcyc
  rw [hrun]
  simp only [classify]
  split_ifs with h1 h2 h3 h4 <;> simp_all <;> omega

/-- Witness for C1 amended: the default button, a 60ms press after two
ticks, classified `ShortPress`. -/
theorem c1_classification_amended_witness :
    (recognizeRun b0 initState (pressTrace 0 2 (msec 60))).2 = [PressLength.ShortPress] :=
  ((c1_classification_amended b0 (by decide) (by decide) 0 (msec 60) 2 (by decide)
      ((recognizeRun b0 initState (pressTrace 0 2 (msec 60))).2) rfl
      (msec 60 - 0) rfl).2.2.1).mpr (by decide)

/-- C6: over any sequence of press/release cycles in which every release is
preceded by at least `debounceThreshold` ticks, the published sequence is a
function of the edge timestamps and the configured thresholds alone —
`classify` of each cycle's edge-to-edge duration — so two runs with the same
edges and different tick schedules publish identical sequences. -/
theorem c6_tick_schedule_irrelevant (b : Button) (edges : List (Int × Int))
    (ms1 ms2 : List Nat)
    (hl1 : ms1.length = edges.length) (hl2 : ms2.length = edges.length)
    (h1 : ∀ k ∈ ms1, debounceThreshold ≤ k) (h2 : ∀ k ∈ ms2, debounceThreshold ≤ k) :
    (recognizeRun b initState (traceZip edges ms1)).2 =
      edges.filterMap (fun e => classify b (e.2 - e.1)) ∧
    (recognizeRun b initState (traceZip edges ms1)).2 =
      (recognizeRun b initState (traceZip edges ms2)).2 := by
  have w1 : ∀ k ∈ ms1, 1 ≤ k := by
    intro k hk
    have := h1 k hk
    simp only [debounceThreshold] at this
    omega
  have w2 : ∀ k ∈ ms2, 1 ≤ k := by
    intro k hk
    have := h2 k hk
    simp only [debounceThreshold] at this
    omega
  have hzero : initState = ({ ticks := 0, btnDown := 0 } : RecState) := rfl
  rw [hzero]
  have e1 := recognizeRun_traceZip b edges ms1 0 hl1 w1
  have e2 := recognizeRun_traceZip b edges ms2 0 hl2 w2
  exact ⟨e1, e1.trans e2.symm⟩

/-- Witness for C6: one 60ms cycle, once with 2 ticks and once with 3. -/
theorem c6_tick_schedule_irrelevant_witness :
    (recognizeRun b0 initState (traceZip [(0, msec 60)] [2])).2 =
      [((0 : Int), msec 60)].filterMap (fun e => classify b0 (e.2 - e.1)) ∧
    (recognizeRun b0 initState (traceZip [(0, msec 60)] [2])).2 =
      (recognizeRun b0 initState (traceZip [(0, msec 60)] [3])).2 :=
  c6_tick_schedule_irrelevant b0 [(0, msec 60)] [2] [3] rfl rfl (by decide) (by decide)

/-- C9: `publish` appends the same value to every output channel, and a
sequence of publishes leaves every channel holding the identical sequence in
the identical order. -/
theorem c9_broadcast_identical (chans : List (List PressLength)) (p : PressLength)
    (n : Nat) (ps : List PressLength) :
    (∀ i : Nat, (publish chans p)[i]? = (chans[i]?).map (fun c => c ++ [p])) ∧
    publishAll (List.replicate n []) ps = List.replicate n ps := by
  constructor
  · intro i
    simp [publish]
  · simpa using publishAll_replicate ps n []

/-- The button built by `New` for the Scenario A test, with `n + 1` output
channels. -/
def c8base (n : Nat) : Button :=
  { name := "btn", quiet := false,
    debounceInterval := msec 21, shortPress := msec 22,
    longPress := msec 500, extraLongPress := msec 1971,
    outChans := List.range (n + 1) }

/-- The Scenario A button after `SetPressDurations 20ms 500ms 1500ms`. -/
def c8btn (n : Nat) : Button :=
  { c8base n with shortPress := msec 20, longPress := msec 500, extraLongPress := msec 1500 }

/-- C8: with thresholds 20ms/500ms/1500ms, the trace press@0, tick, tick,
release@60ms is accepted (the final state is reset to IDLE), the 60ms
duration classifies as `ShortPress`, exactly `[ShortPress]` is published,
and every one of the `n + 1` output channels ends up having received exactly
one `ShortPress`. -/
theorem c8_short_press_run (n : Nat) :
    New false ("btn") (List.range (n + 1)) = Except.ok (c8base n) ∧
    SetPressDurations (c8base n) (msec 20) (msec 500) (msec 1500) = (c8btn n, none) ∧
    classify (c8btn n) (msec 60 - 0) = some PressLength.ShortPress ∧
    recognizeRun (c8btn n) initState (pressTrace 0 2 (msec 60)) =
      ({ ticks := 0, btnDown := 0 }, [PressLength.ShortPress]) ∧
    publishAll (List.replicate (c8btn n).outChans.length []) [PressLength.ShortPress] =
      List.replicate (n + 1) [PressLength.ShortPress] := by
  have hne : ¬ (List.range (n + 1)).length < 1 := by simp
  have hasc : ¬ (msec 20 > msec 500 ∨ msec 20 > msec 1500 ∨ msec 500 > msec 1500) := by decide
  have hlen : (c8btn n).outChans.length = n + 1 := by
    simp [c8btn, c8base]
  refine ⟨?_, ?_, rfl, rfl, ?_⟩
  · simp only [New, if_neg hne]
    rfl
  · simp only [SetPressDurations, if_neg hasc]
    rfl
  · rw [hlen, publishAll_replicate]
    simp

end Bouncer
